import Mathlib

/-!
# GitLab group variable resource: lifecycle handlers

A shallow embedding of `gitlab/resource_gitlab_group_variable.go`.

* The resource handle `*schema.ResourceData` is a record holding the identifier and the
  four schema attributes; `d.Get`, `d.Set`, `d.Id` and `d.SetId` are field reads and updates.
* The remote client `*gitlab.Client` is a parameter: four operations over an arbitrary
  remote state `σ`, each returning the Go result tuple (pointers are `Option`s, `nil` is `none`).
* The two-part identifier helpers are a parameter (`Codec`); `twoPartCodec` is the codec the
  specification describes.
* Every handler returns a `Run`: the handle and remote state it leaves, the events it caused
  (remote requests and handle writes, in order) and how it ended (a returned `error`
  value, or a run-time panic on a nil pointer dereference).
-/

namespace gitlab

/-! ## Data model -/

/-- A non-nil value of the Go interface `error`, identified by its message. -/
structure GoError where
  msg : String
deriving DecidableEq, Repr

/-- The part of `gitlab.Response` the handlers read: the HTTP status code. -/
structure Response where
  StatusCode : Int
deriving DecidableEq, Repr

/-- The fields of `gitlab.GroupVariable` the handlers read. -/
structure GroupVariable where
  Key : String
  Value : String
  Protected : Bool
deriving DecidableEq, Repr

/-- The payload `gitlab.CreateVariableOptions`; every field is a pointer, `nil` is `none`. -/
structure CreateVariableOptions where
  Key : Option String
  Value : Option String
  Protected : Option Bool
  EnvironmentScope : Option String
deriving DecidableEq, Repr

/-- The payload `gitlab.UpdateVariableOptions`; every field is a pointer, `nil` is `none`. -/
structure UpdateVariableOptions where
  Key : Option String
  Value : Option String
  Protected : Option Bool
  EnvironmentScope : Option String
deriving DecidableEq, Repr

/-- The resource handle: the identifier (`d.Id()`) and the four attributes of the schema
(`group`, `key`, `value` of `TypeString`, `protected` of `TypeBool`, here `protected_`). -/
structure ResourceData where
  id : String
  group : String
  key : String
  value : String
  protected_ : Bool
deriving DecidableEq, Repr

/-- Result tuple `(*GroupVariable, *Response, error)` of the create, get and update calls. -/
structure VariableReply where
  v : Option GroupVariable
  resp : Option Response
  err : Option GoError
deriving DecidableEq, Repr

/-- Result tuple `(*Response, error)` of the remove call. -/
structure RemoveReply where
  resp : Option Response
  err : Option GoError
deriving DecidableEq, Repr

/-- The service `client.GroupVariables` over a remote state `σ`: each call takes the remote
state, answers with the Go result tuple and leaves a new remote state. -/
structure Client (σ : Type) where
  CreateVariable : σ → String → CreateVariableOptions → VariableReply × σ
  GetVariable : σ → String → String → VariableReply × σ
  UpdateVariable : σ → String → String → UpdateVariableOptions → VariableReply × σ
  RemoveVariable : σ → String → String → RemoveReply × σ

/-- The two identifier helpers the handlers call (`buildTwoPartID`, `parseTwoPartID`);
`parseTwoPartID` returns `(string, string, error)`. -/
structure Codec where
  buildTwoPartID : String → String → String
  parseTwoPartID : String → Except GoError (String × String)

/-- What a handler did, in order: remote requests and writes to the handle. -/
inductive Event where
  | createVariable (gid : String) (opt : CreateVariableOptions)
  | getVariable (gid : String) (key : String)
  | updateVariable (gid : String) (key : String) (opt : UpdateVariableOptions)
  | removeVariable (gid : String) (key : String)
  | setId (v : String)
  | set (attr : String)
deriving DecidableEq, Repr

/-- Is the event a get request? -/
def Event.isGet : Event → Bool
  | .getVariable _ _ => true
  | _ => false

/-- Is the event an update request? -/
def Event.isUpdate : Event → Bool
  | .updateVariable _ _ _ => true
  | _ => false

/-- Is the event a write of one of the attributes (`d.Set`)? -/
def Event.isSet : Event → Bool
  | .set _ => true
  | _ => false

/-- How a handler ends: it returns an `error` value (`none` is `nil`), or it panics. -/
inductive Outcome where
  | returned (err : Option GoError)
  | panicked
deriving DecidableEq, Repr

/-- The observable result of running a handler. -/
structure Run (σ : Type) where
  d : ResourceData
  remote : σ
  log : List Event
  result : Outcome

/-! ## The lifecycle handlers -/

/-- The handler `resourceGitlabGroupVariableRead`. -/
def resourceGitlabGroupVariableRead {σ : Type} (codec : Codec) (client : Client σ)
    (d : ResourceData) (s : σ) : Run σ :=
  match codec.parseTwoPartID d.id with
  | .error err => ⟨d, s, [], .returned (some err)⟩
  | .ok (group, key) =>
    match client.GetVariable s group key with
    | (⟨v, resp, err⟩, s1) =>
      match err with
      | some e =>
        match resp with
        | none => ⟨d, s1, [.getVariable group key], .panicked⟩
        | some r =>
          if r.StatusCode = 404 then
            ⟨{ d with id := "" }, s1, [.getVariable group key, .setId ""], .returned none⟩
          else
            ⟨d, s1, [.getVariable group key], .returned (some e)⟩
      | none =>
        match v with
        | none => ⟨d, s1, [.getVariable group key], .panicked⟩
        | some gv =>
          ⟨{ d with key := gv.Key, value := gv.Value, group := group, protected_ := gv.Protected },
            s1,
            [.getVariable group key, .set "key", .set "value", .set "group", .set "protected"],
            .returned none⟩

/-- The handler `resourceGitlabGroupVariableCreate`. -/
def resourceGitlabGroupVariableCreate {σ : Type} (codec : Codec) (client : Client σ)
    (d : ResourceData) (s : σ) : Run σ :=
  let group := d.group
  let key := d.key
  let value := d.value
  let protected_ := d.protected_
  let options : CreateVariableOptions :=
    ⟨some key, some value, some protected_, none⟩
  match client.CreateVariable s group options with
  | (⟨_, _, err⟩, s1) =>
    match err with
    | some e => ⟨d, s1, [.createVariable group options], .returned (some e)⟩
    | none =>
      let d1 : ResourceData := { d with id := codec.buildTwoPartID group key }
      let r := resourceGitlabGroupVariableRead codec client d1 s1
      ⟨r.d, r.remote,
        [.createVariable group options, .setId (codec.buildTwoPartID group key)] ++ r.log,
        r.result⟩

/-- The handler `resourceGitlabGroupVariableUpdate`. -/
def resourceGitlabGroupVariableUpdate {σ : Type} (codec : Codec) (client : Client σ)
    (d : ResourceData) (s : σ) : Run σ :=
  let group := d.group
  let key := d.key
  let value := d.value
  let protected_ := d.protected_
  let options : UpdateVariableOptions :=
    ⟨some key, some value, some protected_, none⟩
  match client.UpdateVariable s group key options with
  | (⟨_, resp, err⟩, s1) =>
    match err with
    | some e =>
      match resp with
      | none => ⟨d, s1, [.updateVariable group key options], .panicked⟩
      | some r =>
        if r.StatusCode = 404 then
          ⟨{ d with id := "" }, s1, [.updateVariable group key options, .setId ""],
            .returned none⟩
        else
          ⟨d, s1, [.updateVariable group key options], .returned (some e)⟩
    | none =>
      let r := resourceGitlabGroupVariableRead codec client d s1
      ⟨r.d, r.remote, [.updateVariable group key options] ++ r.log, r.result⟩

/-- The handler `resourceGitlabGroupVariableDelete`. -/
def resourceGitlabGroupVariableDelete {σ : Type} (client : Client σ)
    (d : ResourceData) (s : σ) : Run σ :=
  let group := d.group
  let key := d.key
  match client.RemoveVariable s group key with
  | (⟨_, err⟩, s1) => ⟨d, s1, [.removeVariable group key], .returned err⟩

/-! ## The identifier codec of the specification -/

/-- Modelled from the spec: `buildTwoPartID` is called by the handlers and declared outside
the given source file. The identifier is `group<SEP>key` for a single separator character. -/
def buildTwoPartID (sep : Char) (a b : String) : String :=
  ⟨a.data ++ sep :: b.data⟩

/-- The parts of a character list between the occurrences of the separator. -/
def splitParts (sep : Char) : List Char → List (List Char)
  | [] => [[]]
  | c :: cs =>
    if c = sep then [] :: splitParts sep cs
    else
      match splitParts sep cs with
      | [] => [[c]]
      | p :: ps => (c :: p) :: ps

/-- The error the specification names for an identifier the codec rejects. -/
def MalformedIdentifier : GoError := ⟨"MalformedIdentifier"⟩

/-- Modelled from the spec: `parseTwoPartID` is called by `resourceGitlabGroupVariableRead`
and declared outside the given source file. It is the inverse of `buildTwoPartID` and fails
with `MalformedIdentifier` when the input has fewer than two parts, more than two parts, or
an empty part. -/
def parseTwoPartID (sep : Char) (id : String) : Except GoError (String × String) :=
  match splitParts sep id.data with
  | [a, b] =>
    if a = [] ∨ b = [] then .error MalformedIdentifier else .ok (⟨a⟩, ⟨b⟩)
  | _ => .error MalformedIdentifier

/-- The codec of the specification for a given separator. -/
def twoPartCodec (sep : Char) : Codec :=
  ⟨buildTwoPartID sep, parseTwoPartID sep⟩

/-! ## Test doubles for the remote client -/

/-- The remote state of `memoryClient`: the stored variables, each with its group. -/
abbrev Store := List (String × GroupVariable)

/-- Look a variable up by group and key. -/
def Store.lookup (st : Store) (gid key : String) : Option GroupVariable :=
  match st with
  | [] => none
  | (g, gv) :: rest => if g = gid ∧ gv.Key = key then some gv else Store.lookup rest gid key

/-- Remove every variable stored under the group and key. -/
def Store.erase (st : Store) (gid key : String) : Store :=
  st.filter (fun e => !(decide (e.1 = gid ∧ e.2.Key = key)))

/-- The reply of a remote that does not have the variable: status 404 and an error. -/
def notFound : VariableReply :=
  ⟨none, some ⟨404⟩, some ⟨"404 Not Found"⟩⟩

/-- A remote that stores variables in memory and answers as the group-variables endpoints
do: 201 on create (400 when the key is taken), 200 on get and update, 204 on remove, and
404 with an error for a variable it does not have. -/
def memoryClient : Client Store where
  CreateVariable := fun st gid opt =>
    match st.lookup gid (opt.Key.getD "") with
    | some _ => (⟨none, some ⟨400⟩, some ⟨"400 Bad Request"⟩⟩, st)
    | none =>
      let gv : GroupVariable :=
        ⟨opt.Key.getD "", opt.Value.getD "", opt.Protected.getD false⟩
      (⟨some gv, some ⟨201⟩, none⟩, (gid, gv) :: st)
  GetVariable := fun st gid key =>
    match st.lookup gid key with
    | some gv => (⟨some gv, some ⟨200⟩, none⟩, st)
    | none => (notFound, st)
  UpdateVariable := fun st gid key opt =>
    match st.lookup gid key with
    | some old =>
      let gv : GroupVariable :=
        ⟨key, opt.Value.getD old.Value, opt.Protected.getD old.Protected⟩
      (⟨some gv, some ⟨200⟩, none⟩, (gid, gv) :: st.erase gid key)
    | none => (notFound, st)
  RemoveVariable := fun st gid key =>
    match st.lookup gid key with
    | some _ => (⟨some ⟨204⟩, none⟩, st.erase gid key)
    | none => (⟨some ⟨404⟩, some ⟨"404 Not Found"⟩⟩, st)

/-- A remote without state that gives the same scripted reply to every call of a kind. -/
def scriptedClient (create get update : VariableReply) (remove : RemoveReply) : Client Unit where
  CreateVariable := fun _ _ _ => (create, ())
  GetVariable := fun _ _ _ => (get, ())
  UpdateVariable := fun _ _ _ _ => (update, ())
  RemoveVariable := fun _ _ _ => (remove, ())

/-- The reply of a client that could not reach the remote: an error and no response. -/
def unreachable : VariableReply :=
  ⟨none, none, some ⟨"dial tcp: connection refused"⟩⟩

/-- A client whose every call fails before any response arrives. -/
def offlineClient : Client Unit :=
  scriptedClient unreachable unreachable unreachable ⟨none, some ⟨"dial tcp: connection refused"⟩⟩

/-! ## Properties stated over the handle -/

/-- The identifier invariant: a non-empty identifier is `build(group, key)` of the handle. -/
def IdInvariant (codec : Codec) (d : ResourceData) : Prop :=
  d.id ≠ "" → d.id = codec.buildTwoPartID d.group d.key

/-- Every identifier the codec parses is the one it builds from the parsed parts. -/
def Codec.ParseSound (codec : Codec) : Prop :=
  ∀ (id g k : String), codec.parseTwoPartID id = .ok (g, k) → codec.buildTwoPartID g k = id

/-- Every successful get reply carries the key that was requested. -/
def Client.EchoesKey {σ : Type} (client : Client σ) : Prop :=
  ∀ (s s1 : σ) (gid key : String) (gv : GroupVariable) (resp : Option Response),
    client.GetVariable s gid key = (⟨some gv, resp, none⟩, s1) → gv.Key = key

/-! ## Theorems -/

/-! ### The codec of the specification -/

theorem splitParts_ne_nil (sep : Char) (l : List Char) : splitParts sep l ≠ [] := by
  induction l with
  | nil => simp [splitParts]
  | cons c cs ih =>
    unfold splitParts
    split
    · simp
    · split <;> simp

theorem splitParts_of_not_mem (sep : Char) (l : List Char) (h : sep ∉ l) :
    splitParts sep l = [l] := by
  induction l with
  | nil => simp [splitParts]
  | cons c cs ih =>
    have hc : c ≠ sep := fun hcs => h (by simp [hcs])
    have hcs : sep ∉ cs := fun hm => h (by simp [hm])
    simp [splitParts, hc, ih hcs]

theorem splitParts_append_sep (sep : Char) (a b : List Char) (h : sep ∉ a) :
    splitParts sep (a ++ sep :: b) = a :: splitParts sep b := by
  induction a with
  | nil => simp [splitParts]
  | cons c cs ih =>
    have hc : c ≠ sep := fun hcs => h (by simp [hcs])
    have hcs : sep ∉ cs := fun hm => h (by simp [hm])
    simp [splitParts, hc, ih hcs]

theorem splitParts_one (sep : Char) (l b : List Char) (h : splitParts sep l = [b]) :
    l = b := by
  induction l generalizing b with
  | nil => simpa [splitParts] using h
  | cons c cs ih =>
    unfold splitParts at h
    by_cases hc : c = sep
    · simp [hc, splitParts_ne_nil] at h
    · cases hsp : splitParts sep cs with
      | nil => exact absurd hsp (splitParts_ne_nil sep cs)
      | cons q qs =>
        simp only [hc, if_false, hsp, List.cons.injEq] at h
        obtain ⟨hb, hqs⟩ := h
        subst hqs
        rw [← hb, ih q hsp]

theorem splitParts_two (sep : Char) (l a b : List Char) (h : splitParts sep l = [a, b]) :
    l = a ++ sep :: b := by
  induction l generalizing a with
  | nil => simp [splitParts] at h
  | cons c cs ih =>
    unfold splitParts at h
    by_cases hc : c = sep
    · simp only [hc, if_true, List.cons.injEq] at h
      obtain ⟨ha, hb⟩ := h
      rw [← ha, hc, splitParts_one sep cs b hb]
      rfl
    · cases hsp : splitParts sep cs with
      | nil => exact absurd hsp (splitParts_ne_nil sep cs)
      | cons q qs =>
        simp only [hc, if_false, hsp, List.cons.injEq] at h
        obtain ⟨ha, hqs⟩ := h
        subst hqs
        rw [← ha, ih q hsp]
        rfl

/-- The codec of the specification only parses identifiers it builds: a parsed identifier
is `build` of its two parts. -/
theorem twoPartCodec_parseSound (sep : Char) : (twoPartCodec sep).ParseSound := by
  intro id g k h
  simp only [twoPartCodec, parseTwoPartID] at h
  split at h
  · next a b hsp =>
    split at h
    · cases h
    · simp only [Except.ok.injEq, Prod.mk.injEq] at h
      obtain ⟨hg, hk⟩ := h
      subst hg hk
      have := splitParts_two sep id.data a b hsp
      simp only [twoPartCodec, buildTwoPartID]
      rw [← this]
  · cases h

/-- Round-trip law of the codec of the specification: for non-empty parts that do not
contain the separator, `parse(build(g, k)) = (g, k)`. -/
theorem twoPartCodec_roundTrip (sep : Char) (g k : String) (hg : g ≠ "") (hk : k ≠ "")
    (hgs : sep ∉ g.data) (hks : sep ∉ k.data) :
    (twoPartCodec sep).parseTwoPartID ((twoPartCodec sep).buildTwoPartID g k) = .ok (g, k) := by
  have hg1 : g.data ≠ [] := fun h => hg (by cases g; simp_all)
  have hk1 : k.data ≠ [] := fun h => hk (by cases k; simp_all)
  simp [twoPartCodec, parseTwoPartID, buildTwoPartID, splitParts_append_sep sep _ _ hgs,
    splitParts_of_not_mem sep _ hks, hg1, hk1]

/-- Every identifier the codec of the specification parses has two non-empty parts without
the separator. -/
theorem twoPartCodec_parse_valid (sep : Char) (id g k : String)
    (h : (twoPartCodec sep).parseTwoPartID id = .ok (g, k)) :
    g ≠ "" ∧ k ≠ "" := by
  simp only [twoPartCodec, parseTwoPartID] at h
  split at h
  · next a b hsp =>
    split at h
    · cases h
    · next hne =>
      simp only [Except.ok.injEq, Prod.mk.injEq] at h
      obtain ⟨hg, hk⟩ := h
      subst hg hk
      simp only [not_or] at hne
      constructor
      · intro hcontra
        apply hne.1
        have := congrArg String.data hcontra
        simpa using this
      · intro hcontra
        apply hne.2
        have := congrArg String.data hcontra
        simpa using this
  · cases h

/-! ### Read -/

/-- C1 (Read of absent). For every handle whose identifier parses to `(group, key)`, if the
get call returns an error together with a response of status 404, Read returns nil with the
identifier cleared to the empty string and no attribute written: the handle differs from
the given one in the identifier only, and the only events are the get request and the
identifier write. -/
theorem read_of_absent {σ : Type} (codec : Codec) (client : Client σ) (d : ResourceData)
    (s s1 : σ) (group key : String) (v : Option GroupVariable) (r : Response) (e : GoError)
    (hparse : codec.parseTwoPartID d.id = .ok (group, key))
    (hget : client.GetVariable s group key = (⟨v, some r, some e⟩, s1))
    (h404 : r.StatusCode = 404) :
    resourceGitlabGroupVariableRead codec client d s
        = ⟨⟨"", d.group, d.key, d.value, d.protected_⟩, s1,
            [.getVariable group key, .setId ""], .returned none⟩ ∧
      (∀ ev ∈ (resourceGitlabGroupVariableRead codec client d s).log, ev.isSet = false) := by
  simp [resourceGitlabGroupVariableRead, hparse, hget, h404, Event.isSet]

/-- Witness of C1: the empty in-memory remote answers 404 for the identifier `mygroup:FOO`. -/
theorem read_of_absent_witness :
    (twoPartCodec ':').parseTwoPartID "mygroup:FOO" = .ok ("mygroup", "FOO") ∧
    memoryClient.GetVariable [] "mygroup" "FOO"
      = (⟨none, some ⟨404⟩, some ⟨"404 Not Found"⟩⟩, []) ∧
    (resourceGitlabGroupVariableRead (twoPartCodec ':') memoryClient
        ⟨"mygroup:FOO", "mygroup", "FOO", "bar", false⟩ []
      = ⟨⟨"", "mygroup", "FOO", "bar", false⟩, [],
          [.getVariable "mygroup" "FOO", .setId ""], .returned none⟩) :=
  ⟨rfl, rfl,
    (read_of_absent (twoPartCodec ':') memoryClient
      ⟨"mygroup:FOO", "mygroup", "FOO", "bar", false⟩ [] [] "mygroup" "FOO" none ⟨404⟩
      ⟨"404 Not Found"⟩ rfl rfl rfl).1⟩

/-- C6 (Read refresh). For every handle whose identifier parses to `(group, key)`, if the get
request for `(group, key)` succeeds with the variable `gv`, Read returns nil and the handle
afterwards has the key, value and protected flag of `gv`, the group parsed from the
identifier (whatever group attribute was stored before) and the identifier it had. -/
theorem read_refresh {σ : Type} (codec : Codec) (client : Client σ) (d : ResourceData)
    (s s1 : σ) (group key : String) (gv : GroupVariable) (resp : Option Response)
    (hparse : codec.parseTwoPartID d.id = .ok (group, key))
    (hget : client.GetVariable s group key = (⟨some gv, resp, none⟩, s1)) :
    resourceGitlabGroupVariableRead codec client d s
      = ⟨⟨d.id, group, gv.Key, gv.Value, gv.Protected⟩, s1,
          [.getVariable group key, .set "key", .set "value", .set "group", .set "protected"],
          .returned none⟩ := by
  simp [resourceGitlabGroupVariableRead, hparse, hget]

/-- Witness of C6: a handle with stale attributes is refreshed from the remote, the group
from the identifier. -/
theorem read_refresh_witness :
    (twoPartCodec ':').parseTwoPartID "mygroup:FOO" = .ok ("mygroup", "FOO") ∧
    memoryClient.GetVariable [("mygroup", ⟨"FOO", "bar", false⟩)] "mygroup" "FOO"
      = (⟨some ⟨"FOO", "bar", false⟩, some ⟨200⟩, none⟩,
          [("mygroup", ⟨"FOO", "bar", false⟩)]) ∧
    (resourceGitlabGroupVariableRead (twoPartCodec ':') memoryClient
        ⟨"mygroup:FOO", "stale", "OLD", "old", true⟩ [("mygroup", ⟨"FOO", "bar", false⟩)]
      = ⟨⟨"mygroup:FOO", "mygroup", "FOO", "bar", false⟩,
          [("mygroup", ⟨"FOO", "bar", false⟩)],
          [.getVariable "mygroup" "FOO", .set "key", .set "value", .set "group",
            .set "protected"],
          .returned none⟩) :=
  ⟨rfl, rfl,
    read_refresh (twoPartCodec ':') memoryClient
      ⟨"mygroup:FOO", "stale", "OLD", "old", true⟩ [("mygroup", ⟨"FOO", "bar", false⟩)]
      [("mygroup", ⟨"FOO", "bar", false⟩)] "mygroup" "FOO" ⟨"FOO", "bar", false⟩
      (some ⟨200⟩) rfl rfl⟩

/-- C9 (Malformed identifier). For every handle whose identifier the codec rejects, Read
returns the error of the parse, issues no remote request (it causes no event at all, and
the remote state is the one it was given) and leaves the identifier and all attributes
unchanged. -/
theorem read_malformed_identifier {σ : Type} (codec : Codec) (client : Client σ)
    (d : ResourceData) (s : σ) (e : GoError)
    (hparse : codec.parseTwoPartID d.id = .error e) :
    resourceGitlabGroupVariableRead codec client d s = ⟨d, s, [], .returned (some e)⟩ := by
  simp [resourceGitlabGroupVariableRead, hparse]

/-- Witness of C9: the imported identifier `no-separator-here` is rejected by the codec of
the specification with `MalformedIdentifier`, which Read returns. -/
theorem read_malformed_identifier_witness :
    (twoPartCodec ':').parseTwoPartID "no-separator-here" = .error MalformedIdentifier ∧
    (resourceGitlabGroupVariableRead (twoPartCodec ':') memoryClient
        ⟨"no-separator-here", "", "", "", false⟩ [("mygroup", ⟨"FOO", "bar", false⟩)]
      = ⟨⟨"no-separator-here", "", "", "", false⟩, [("mygroup", ⟨"FOO", "bar", false⟩)], [],
          .returned (some MalformedIdentifier)⟩) :=
  ⟨rfl,
    read_malformed_identifier (twoPartCodec ':') memoryClient
      ⟨"no-separator-here", "", "", "", false⟩ [("mygroup", ⟨"FOO", "bar", false⟩)]
      MalformedIdentifier rfl⟩

/-- Read surfaces an error that comes with a response of a status other than 404: it returns
exactly that error and leaves the handle as it was. -/
theorem read_surfaces_error {σ : Type} (codec : Codec) (client : Client σ) (d : ResourceData)
    (s s1 : σ) (group key : String) (v : Option GroupVariable) (r : Response) (e : GoError)
    (hparse : codec.parseTwoPartID d.id = .ok (group, key))
    (hget : client.GetVariable s group key = (⟨v, some r, some e⟩, s1))
    (hstatus : r.StatusCode ≠ 404) :
    resourceGitlabGroupVariableRead codec client d s
      = ⟨d, s1, [.getVariable group key], .returned (some e)⟩ := by
  simp [resourceGitlabGroupVariableRead, hparse, hget, hstatus]

/-- Read panics when the get call returns an error and no response: `resp.StatusCode` is
read through a nil pointer. -/
theorem read_panics_without_response {σ : Type} (codec : Codec) (client : Client σ)
    (d : ResourceData) (s s1 : σ) (group key : String) (v : Option GroupVariable)
    (e : GoError)
    (hparse : codec.parseTwoPartID d.id = .ok (group, key))
    (hget : client.GetVariable s group key = (⟨v, none, some e⟩, s1)) :
    resourceGitlabGroupVariableRead codec client d s
      = ⟨d, s1, [.getVariable group key], .panicked⟩ := by
  simp [resourceGitlabGroupVariableRead, hparse, hget]

/-! ### Create -/

/-- C5 (Create is atomic on failure). For every handle, if the create request returns an
error, Create returns exactly that error, the handle is the one it was given (no identifier
set, no attribute written) and the create request is the only event: no get request. -/
theorem create_atomic_on_failure {σ : Type} (codec : Codec) (client : Client σ)
    (d : ResourceData) (s s1 : σ) (cv : Option GroupVariable) (resp : Option Response)
    (e : GoError)
    (hcreate : client.CreateVariable s d.group
      ⟨some d.key, some d.value, some d.protected_, none⟩ = (⟨cv, resp, some e⟩, s1)) :
    resourceGitlabGroupVariableCreate codec client d s
      = ⟨d, s1,
          [.createVariable d.group ⟨some d.key, some d.value, some d.protected_, none⟩],
          .returned (some e)⟩ := by
  simp [resourceGitlabGroupVariableCreate, hcreate]

/-- Witness of C5: the in-memory remote refuses to create a key that is taken. -/
theorem create_atomic_on_failure_witness :
    memoryClient.CreateVariable [("mygroup", ⟨"FOO", "old", true⟩)] "mygroup"
        ⟨some "FOO", some "bar", some false, none⟩
      = (⟨none, some ⟨400⟩, some ⟨"400 Bad Request"⟩⟩, [("mygroup", ⟨"FOO", "old", true⟩)]) ∧
    (resourceGitlabGroupVariableCreate (twoPartCodec ':') memoryClient
        ⟨"", "mygroup", "FOO", "bar", false⟩ [("mygroup", ⟨"FOO", "old", true⟩)]
      = ⟨⟨"", "mygroup", "FOO", "bar", false⟩, [("mygroup", ⟨"FOO", "old", true⟩)],
          [.createVariable "mygroup" ⟨some "FOO", some "bar", some false, none⟩],
          .returned (some ⟨"400 Bad Request"⟩)⟩) :=
  ⟨rfl,
    create_atomic_on_failure (twoPartCodec ':') memoryClient
      ⟨"", "mygroup", "FOO", "bar", false⟩ [("mygroup", ⟨"FOO", "old", true⟩)]
      [("mygroup", ⟨"FOO", "old", true⟩)] none (some ⟨400⟩) ⟨"400 Bad Request"⟩ rfl⟩

/-- C4 as stated fails: for the declared group `a:b` (the schema accepts every string as
group) the in-memory remote creates the variable and would answer the get request for
`(a:b, FOO)` with `{FOO, bar, false}`, yet Create does not return success: the identifier
`a:b:FOO` it has set is rejected by the parse of the codec of the specification, so Create
returns `MalformedIdentifier`, issues no get request and leaves the identifier set. -/
theorem create_then_read_counterexample :
    (memoryClient.CreateVariable [] "a:b" ⟨some "FOO", some "bar", some false, none⟩
      = (⟨some ⟨"FOO", "bar", false⟩, some ⟨201⟩, none⟩, [("a:b", ⟨"FOO", "bar", false⟩)])) ∧
    (memoryClient.GetVariable [("a:b", ⟨"FOO", "bar", false⟩)] "a:b" "FOO"
      = (⟨some ⟨"FOO", "bar", false⟩, some ⟨200⟩, none⟩, [("a:b", ⟨"FOO", "bar", false⟩)])) ∧
    (resourceGitlabGroupVariableCreate (twoPartCodec ':') memoryClient
        ⟨"", "a:b", "FOO", "bar", false⟩ []
      = ⟨⟨"a:b:FOO", "a:b", "FOO", "bar", false⟩, [("a:b", ⟨"FOO", "bar", false⟩)],
          [.createVariable "a:b" ⟨some "FOO", some "bar", some false, none⟩,
            .setId "a:b:FOO"],
          .returned (some MalformedIdentifier)⟩) ∧
    (resourceGitlabGroupVariableCreate (twoPartCodec ':') memoryClient
        ⟨"", "a:b", "FOO", "bar", false⟩ []).result ≠ .returned none :=
  ⟨rfl, rfl, rfl, by decide⟩

/-- C4 amended (Create-then-Read idempotence). For every declared `(g, k, v, p)` on which
the codec round-trips, `parse(build(g, k)) = (g, k)`: if the create request succeeds and the
remote answers the get request for `(g, k)` with `{k, v, p}` (at the follow-up of Create and
at the further Read), Create returns nil having issued exactly one create request (payload
key `k`, value `v`, protected `p`, environment scope unset, addressed to `g`), then set the
identifier, then issued exactly one get request; the handle then holds exactly
`(g, k, v, p)` with identifier `build(g, k)`, and a further immediate Read against the
remote as Create left it returns nil and leaves that handle and identifier unchanged. -/
theorem create_then_read {σ : Type} (codec : Codec) (client : Client σ)
    (id0 g k v : String) (p : Bool) (s s1 s2 s3 : σ)
    (cv : Option GroupVariable) (r0 r1 r2 : Option Response)
    (hrt : codec.parseTwoPartID (codec.buildTwoPartID g k) = .ok (g, k))
    (hcreate : client.CreateVariable s g ⟨some k, some v, some p, none⟩
      = (⟨cv, r0, none⟩, s1))
    (hget : client.GetVariable s1 g k = (⟨some ⟨k, v, p⟩, r1, none⟩, s2))
    (hagain : client.GetVariable s2 g k = (⟨some ⟨k, v, p⟩, r2, none⟩, s3)) :
    resourceGitlabGroupVariableCreate codec client ⟨id0, g, k, v, p⟩ s
        = ⟨⟨codec.buildTwoPartID g k, g, k, v, p⟩, s2,
            [.createVariable g ⟨some k, some v, some p, none⟩,
              .setId (codec.buildTwoPartID g k),
              .getVariable g k, .set "key", .set "value", .set "group", .set "protected"],
            .returned none⟩ ∧
      resourceGitlabGroupVariableRead codec client ⟨codec.buildTwoPartID g k, g, k, v, p⟩ s2
        = ⟨⟨codec.buildTwoPartID g k, g, k, v, p⟩, s3,
            [.getVariable g k, .set "key", .set "value", .set "group", .set "protected"],
            .returned none⟩ := by
  constructor
  · simp [resourceGitlabGroupVariableCreate, resourceGitlabGroupVariableRead, hcreate, hrt,
      hget]
  · simp [resourceGitlabGroupVariableRead, hrt, hagain]

/-- Witness of C4 (scenario S1): `mygroup`, `FOO`, `bar`, `false` against the empty
in-memory remote. -/
theorem create_then_read_witness :
    (twoPartCodec ':').parseTwoPartID ((twoPartCodec ':').buildTwoPartID "mygroup" "FOO")
      = .ok ("mygroup", "FOO") ∧
    (resourceGitlabGroupVariableCreate (twoPartCodec ':') memoryClient
        ⟨"", "mygroup", "FOO", "bar", false⟩ []
      = ⟨⟨"mygroup:FOO", "mygroup", "FOO", "bar", false⟩,
          [("mygroup", ⟨"FOO", "bar", false⟩)],
          [.createVariable "mygroup" ⟨some "FOO", some "bar", some false, none⟩,
            .setId "mygroup:FOO",
            .getVariable "mygroup" "FOO", .set "key", .set "value", .set "group",
            .set "protected"],
          .returned none⟩) ∧
    (resourceGitlabGroupVariableRead (twoPartCodec ':') memoryClient
        ⟨"mygroup:FOO", "mygroup", "FOO", "bar", false⟩ [("mygroup", ⟨"FOO", "bar", false⟩)]
      = ⟨⟨"mygroup:FOO", "mygroup", "FOO", "bar", false⟩,
          [("mygroup", ⟨"FOO", "bar", false⟩)],
          [.getVariable "mygroup" "FOO", .set "key", .set "value", .set "group",
            .set "protected"],
          .returned none⟩) :=
  have h := create_then_read (twoPartCodec ':') memoryClient "" "mygroup" "FOO" "bar" false
    [] [("mygroup", ⟨"FOO", "bar", false⟩)] [("mygroup", ⟨"FOO", "bar", false⟩)]
    [("mygroup", ⟨"FOO", "bar", false⟩)] (some ⟨"FOO", "bar", false⟩)
    (some ⟨201⟩) (some ⟨200⟩) (some ⟨200⟩) rfl rfl rfl rfl
  ⟨rfl, h.1, h.2⟩

/-! ### Update -/

/-- C2 (Update of absent). For every handle, if the update call returns an error together
with a response of status 404, Update returns nil, clears the identifier to the empty
string, leaves the four attributes unchanged and issues no follow-up get request: the only
events are the update request and the identifier write. -/
theorem update_of_absent {σ : Type} (codec : Codec) (client : Client σ) (d : ResourceData)
    (s s1 : σ) (uv : Option GroupVariable) (r : Response) (e : GoError)
    (hupdate : client.UpdateVariable s d.group d.key
      ⟨some d.key, some d.value, some d.protected_, none⟩ = (⟨uv, some r, some e⟩, s1))
    (h404 : r.StatusCode = 404) :
    resourceGitlabGroupVariableUpdate codec client d s
        = ⟨⟨"", d.group, d.key, d.value, d.protected_⟩, s1,
            [.updateVariable d.group d.key
              ⟨some d.key, some d.value, some d.protected_, none⟩, .setId ""],
            .returned none⟩ ∧
      (∀ ev ∈ (resourceGitlabGroupVariableUpdate codec client d s).log, ev.isGet = false) := by
  simp [resourceGitlabGroupVariableUpdate, hupdate, h404, Event.isGet]

/-- Witness of C2 (scenario S5): the variable is gone from the in-memory remote when the
value is changed to `baz`. -/
theorem update_of_absent_witness :
    memoryClient.UpdateVariable [] "mygroup" "FOO" ⟨some "FOO", some "baz", some false, none⟩
      = (⟨none, some ⟨404⟩, some ⟨"404 Not Found"⟩⟩, []) ∧
    (resourceGitlabGroupVariableUpdate (twoPartCodec ':') memoryClient
        ⟨"mygroup:FOO", "mygroup", "FOO", "baz", false⟩ []
      = ⟨⟨"", "mygroup", "FOO", "baz", false⟩, [],
          [.updateVariable "mygroup" "FOO" ⟨some "FOO", some "baz", some false, none⟩,
            .setId ""],
          .returned none⟩) :=
  ⟨rfl,
    (update_of_absent (twoPartCodec ':') memoryClient
      ⟨"mygroup:FOO", "mygroup", "FOO", "baz", false⟩ [] [] none ⟨404⟩ ⟨"404 Not Found"⟩
      rfl rfl).1⟩

/-- Update surfaces an error that comes with a response of a status other than 404: it
returns exactly that error and leaves the handle as it was. -/
theorem update_surfaces_error {σ : Type} (codec : Codec) (client : Client σ)
    (d : ResourceData) (s s1 : σ) (uv : Option GroupVariable) (r : Response) (e : GoError)
    (hupdate : client.UpdateVariable s d.group d.key
      ⟨some d.key, some d.value, some d.protected_, none⟩ = (⟨uv, some r, some e⟩, s1))
    (hstatus : r.StatusCode ≠ 404) :
    resourceGitlabGroupVariableUpdate codec client d s
      = ⟨d, s1,
          [.updateVariable d.group d.key ⟨some d.key, some d.value, some d.protected_, none⟩],
          .returned (some e)⟩ := by
  simp [resourceGitlabGroupVariableUpdate, hupdate, hstatus]

/-- Update panics when the update call returns an error and no response: `resp.StatusCode`
is read through a nil pointer. -/
theorem update_panics_without_response {σ : Type} (codec : Codec) (client : Client σ)
    (d : ResourceData) (s s1 : σ) (uv : Option GroupVariable) (e : GoError)
    (hupdate : client.UpdateVariable s d.group d.key
      ⟨some d.key, some d.value, some d.protected_, none⟩ = (⟨uv, none, some e⟩, s1)) :
    resourceGitlabGroupVariableUpdate codec client d s
      = ⟨d, s1,
          [.updateVariable d.group d.key ⟨some d.key, some d.value, some d.protected_, none⟩],
          .panicked⟩ := by
  simp [resourceGitlabGroupVariableUpdate, hupdate]

/-- C3 at the failing input: the client cannot reach the remote and returns an error and no
response at all. Read and Update do not return that error: each panics on the nil response
right after its request. -/
theorem transport_error_without_response_panics :
    (offlineClient.GetVariable () "mygroup" "FOO"
      = (⟨none, none, some ⟨"dial tcp: connection refused"⟩⟩, ())) ∧
    (resourceGitlabGroupVariableRead (twoPartCodec ':') offlineClient
        ⟨"mygroup:FOO", "mygroup", "FOO", "bar", false⟩ ()
      = ⟨⟨"mygroup:FOO", "mygroup", "FOO", "bar", false⟩, (),
          [.getVariable "mygroup" "FOO"], .panicked⟩) ∧
    (offlineClient.UpdateVariable () "mygroup" "FOO"
        ⟨some "FOO", some "bar", some false, none⟩
      = (⟨none, none, some ⟨"dial tcp: connection refused"⟩⟩, ())) ∧
    (resourceGitlabGroupVariableUpdate (twoPartCodec ':') offlineClient
        ⟨"mygroup:FOO", "mygroup", "FOO", "bar", false⟩ ()
      = ⟨⟨"mygroup:FOO", "mygroup", "FOO", "bar", false⟩, (),
          [.updateVariable "mygroup" "FOO" ⟨some "FOO", some "bar", some false, none⟩],
          .panicked⟩) :=
  ⟨rfl, rfl, rfl, rfl⟩

/-- Read issues no update request. -/
theorem read_log_no_update {σ : Type} (codec : Codec) (client : Client σ) (d : ResourceData)
    (s : σ) :
    (resourceGitlabGroupVariableRead codec client d s).log.filter Event.isUpdate = [] := by
  cases hparse : codec.parseTwoPartID d.id with
  | error e => simp [resourceGitlabGroupVariableRead, hparse]
  | ok gk =>
    obtain ⟨group, key⟩ := gk
    rcases hget : client.GetVariable s group key with ⟨⟨v, resp, err⟩, s1⟩
    cases err with
    | some e =>
      cases resp with
      | none => simp [resourceGitlabGroupVariableRead, hparse, hget, Event.isUpdate]
      | some r =>
        by_cases h : r.StatusCode = 404 <;>
          simp [resourceGitlabGroupVariableRead, hparse, hget, h, Event.isUpdate]
    | none =>
      cases v with
      | none => simp [resourceGitlabGroupVariableRead, hparse, hget, Event.isUpdate]
      | some gv => simp [resourceGitlabGroupVariableRead, hparse, hget, Event.isUpdate]

/-- C8 as stated fails: the handle has the attributes `(a:b, FOO, baz, false)` and the
identifier `build(a:b, FOO)`, the update request succeeds and the remote would answer the
get request with `{FOO, baz, false}`, yet Update does not return success: the parse of the
codec of the specification rejects the identifier, so Update returns `MalformedIdentifier`
and issues no get request. -/
theorem update_in_place_counterexample :
    ((twoPartCodec ':').buildTwoPartID "a:b" "FOO" = "a:b:FOO") ∧
    (memoryClient.UpdateVariable [("a:b", ⟨"FOO", "bar", false⟩)] "a:b" "FOO"
        ⟨some "FOO", some "baz", some false, none⟩
      = (⟨some ⟨"FOO", "baz", false⟩, some ⟨200⟩, none⟩, [("a:b", ⟨"FOO", "baz", false⟩)])) ∧
    (memoryClient.GetVariable [("a:b", ⟨"FOO", "baz", false⟩)] "a:b" "FOO"
      = (⟨some ⟨"FOO", "baz", false⟩, some ⟨200⟩, none⟩, [("a:b", ⟨"FOO", "baz", false⟩)])) ∧
    (resourceGitlabGroupVariableUpdate (twoPartCodec ':') memoryClient
        ⟨"a:b:FOO", "a:b", "FOO", "baz", false⟩ [("a:b", ⟨"FOO", "bar", false⟩)]
      = ⟨⟨"a:b:FOO", "a:b", "FOO", "baz", false⟩, [("a:b", ⟨"FOO", "baz", false⟩)],
          [.updateVariable "a:b" "FOO" ⟨some "FOO", some "baz", some false, none⟩],
          .returned (some MalformedIdentifier)⟩) ∧
    (resourceGitlabGroupVariableUpdate (twoPartCodec ':') memoryClient
        ⟨"a:b:FOO", "a:b", "FOO", "baz", false⟩ [("a:b", ⟨"FOO", "bar", false⟩)]).result
      ≠ .returned none :=
  ⟨rfl, rfl, rfl, rfl, by decide⟩

/-- C8 amended (Update in place). For every handle with attributes `(g, k, v, p)` and
identifier `build(g, k)`, Update issues exactly one update request, addressed to `(g, k)`
with payload key `k` (the path key), value `v`, protected `p` and environment scope unset;
and when the codec round-trips on `(g, k)`, `parse(build(g, k)) = (g, k)`: if that request
succeeds and the remote then answers the get request with `{k, v, p}`, Update returns nil
after exactly one get request and the final handle holds `(g, k, v, p)` with the identifier
unchanged. -/
theorem update_in_place {σ : Type} (codec : Codec) (client : Client σ)
    (g k v : String) (p : Bool) (s : σ) :
    (resourceGitlabGroupVariableUpdate codec client
        ⟨codec.buildTwoPartID g k, g, k, v, p⟩ s).log.filter Event.isUpdate
      = [.updateVariable g k ⟨some k, some v, some p, none⟩] ∧
    (∀ (s1 s2 : σ) (uv : Option GroupVariable) (r0 r1 : Option Response),
      codec.parseTwoPartID (codec.buildTwoPartID g k) = .ok (g, k) →
      client.UpdateVariable s g k ⟨some k, some v, some p, none⟩ = (⟨uv, r0, none⟩, s1) →
      client.GetVariable s1 g k = (⟨some ⟨k, v, p⟩, r1, none⟩, s2) →
      resourceGitlabGroupVariableUpdate codec client ⟨codec.buildTwoPartID g k, g, k, v, p⟩ s
        = ⟨⟨codec.buildTwoPartID g k, g, k, v, p⟩, s2,
            [.updateVariable g k ⟨some k, some v, some p, none⟩,
              .getVariable g k, .set "key", .set "value", .set "group", .set "protected"],
            .returned none⟩) := by
  constructor
  · rcases hreply : client.UpdateVariable s g k ⟨some k, some v, some p, none⟩
      with ⟨⟨uv, resp, err⟩, s1⟩
    cases err with
    | some e =>
      cases resp with
      | none => simp [resourceGitlabGroupVariableUpdate, hreply, Event.isUpdate]
      | some r =>
        by_cases h : r.StatusCode = 404 <;>
          simp [resourceGitlabGroupVariableUpdate, hreply, h, Event.isUpdate]
    | none =>
      simp [resourceGitlabGroupVariableUpdate, hreply, List.filter_cons, Event.isUpdate,
        read_log_no_update]
  · intro s1 s2 uv r0 r1 hrt hupdate hget
    simp [resourceGitlabGroupVariableUpdate, resourceGitlabGroupVariableRead, hupdate, hrt,
      hget]

/-- Witness of C8 (scenario S2): from the steady state of S1 the value is changed to `baz`. -/
theorem update_in_place_witness :
    (twoPartCodec ':').parseTwoPartID ((twoPartCodec ':').buildTwoPartID "mygroup" "FOO")
      = .ok ("mygroup", "FOO") ∧
    (resourceGitlabGroupVariableUpdate (twoPartCodec ':') memoryClient
        ⟨"mygroup:FOO", "mygroup", "FOO", "baz", false⟩ [("mygroup", ⟨"FOO", "bar", false⟩)]
      = ⟨⟨"mygroup:FOO", "mygroup", "FOO", "baz", false⟩,
          [("mygroup", ⟨"FOO", "baz", false⟩)],
          [.updateVariable "mygroup" "FOO" ⟨some "FOO", some "baz", some false, none⟩,
            .getVariable "mygroup" "FOO", .set "key", .set "value", .set "group",
            .set "protected"],
          .returned none⟩) :=
  ⟨rfl,
    (update_in_place (twoPartCodec ':') memoryClient "mygroup" "FOO" "baz" false
      [("mygroup", ⟨"FOO", "bar", false⟩)]).2
      [("mygroup", ⟨"FOO", "baz", false⟩)] [("mygroup", ⟨"FOO", "baz", false⟩)]
      (some ⟨"FOO", "baz", false⟩) (some ⟨200⟩) (some ⟨200⟩) rfl rfl rfl⟩

/-! ### Delete -/

/-- C10 (Delete returns the transport result). For every handle and every reply of the
remote client, Delete issues exactly one request, the delete request addressed to the
`(group, key)` attributes of the handle, returns exactly the error (or nil) the client
returned, whatever the status of the response, and leaves the handle as it was. -/
theorem delete_returns_transport_result {σ : Type} (client : Client σ) (d : ResourceData)
    (s : σ) :
    resourceGitlabGroupVariableDelete client d s
      = ⟨d, (client.RemoveVariable s d.group d.key).2,
          [.removeVariable d.group d.key],
          .returned (client.RemoveVariable s d.group d.key).1.err⟩ := by
  simp [resourceGitlabGroupVariableDelete]

/-! ### The identifier invariant -/

/-- A successful Read leaves a handle whose identifier is `build` of its group and key, when
the codec only parses identifiers it builds and the get reply carries the requested key. -/
theorem read_establishes_invariant {σ : Type} (codec : Codec) (client : Client σ)
    (d : ResourceData) (s : σ) (hsound : codec.ParseSound) (hecho : client.EchoesKey)
    (hok : (resourceGitlabGroupVariableRead codec client d s).result = .returned none) :
    IdInvariant codec (resourceGitlabGroupVariableRead codec client d s).d := by
  cases hparse : codec.parseTwoPartID d.id with
  | error e => simp [resourceGitlabGroupVariableRead, hparse] at hok
  | ok gk =>
    obtain ⟨group, key⟩ := gk
    rcases hget : client.GetVariable s group key with ⟨⟨v, resp, err⟩, s1⟩
    cases err with
    | some e =>
      cases resp with
      | none => simp [resourceGitlabGroupVariableRead, hparse, hget] at hok
      | some r =>
        by_cases h : r.StatusCode = 404
        · simp [resourceGitlabGroupVariableRead, hparse, hget, h, IdInvariant]
        · simp [resourceGitlabGroupVariableRead, hparse, hget, h] at hok
    | none =>
      cases v with
      | none => simp [resourceGitlabGroupVariableRead, hparse, hget] at hok
      | some gv =>
        have hkey : gv.Key = key := hecho s s1 group key gv resp hget
        have hid : codec.buildTwoPartID group key = d.id := hsound d.id group key hparse
        simp [resourceGitlabGroupVariableRead, hparse, hget, IdInvariant, hkey, hid]

/-- A variable found in the store under a group and key has that key. -/
theorem Store.lookup_key (st : Store) (gid key : String) (gv : GroupVariable)
    (h : Store.lookup st gid key = some gv) : gv.Key = key := by
  induction st with
  | nil => simp [Store.lookup] at h
  | cons e rest ih =>
    obtain ⟨g, x⟩ := e
    unfold Store.lookup at h
    split at h
    · next hc =>
      simp only [Option.some.injEq] at h
      rw [← h]
      exact hc.2
    · exact ih h

/-- The in-memory remote answers a get request with the key that was requested. -/
theorem memoryClient_echoesKey : memoryClient.EchoesKey := by
  intro s s1 gid key gv resp h
  simp only [memoryClient] at h
  cases hl : Store.lookup s gid key with
  | none => simp [hl, notFound] at h
  | some x =>
    simp only [hl, Prod.mk.injEq, VariableReply.mk.injEq, Option.some.injEq] at h
    rw [← h.1.1]
    exact Store.lookup_key s gid key x hl

/-- C7 as stated fails: the handle `(mygroup, FOO)` with identifier `mygroup:FOO` satisfies
the invariant and the remote answers the get request for `(mygroup, FOO)` successfully with
a variable whose key is `QUX`; Read returns nil and writes that key, so the handle it leaves
has identifier `mygroup:FOO` and key `QUX` and the invariant no longer holds. -/
theorem identifier_invariant_counterexample :
    IdInvariant (twoPartCodec ':') ⟨"mygroup:FOO", "mygroup", "FOO", "bar", false⟩ ∧
    (resourceGitlabGroupVariableRead (twoPartCodec ':')
        (scriptedClient notFound ⟨some ⟨"QUX", "bar", false⟩, some ⟨200⟩, none⟩ notFound
          ⟨some ⟨204⟩, none⟩)
        ⟨"mygroup:FOO", "mygroup", "FOO", "bar", false⟩ ()
      = ⟨⟨"mygroup:FOO", "mygroup", "QUX", "bar", false⟩, (),
          [.getVariable "mygroup" "FOO", .set "key", .set "value", .set "group",
            .set "protected"],
          .returned none⟩) ∧
    ¬ IdInvariant (twoPartCodec ':')
      (resourceGitlabGroupVariableRead (twoPartCodec ':')
        (scriptedClient notFound ⟨some ⟨"QUX", "bar", false⟩, some ⟨200⟩, none⟩ notFound
          ⟨some ⟨204⟩, none⟩)
        ⟨"mygroup:FOO", "mygroup", "FOO", "bar", false⟩ ()).d :=
  ⟨fun _ => rfl, rfl, fun h => absurd (h (by decide)) (by decide)⟩

/-- C7 amended (identifier invariant). When the codec only parses identifiers it builds and
every successful get reply carries the key that was requested, every lifecycle handler
preserves "if the identifier is non-empty then it equals `build(group, key)` for the current
group and key of the handle": for every handle satisfying it (for Create, in particular
every handle with an empty identifier), every remote state and every reply of such a
client, the handle left by a successful Create, Read, Update or Delete satisfies it again. -/
theorem identifier_invariant_preserved {σ : Type} (codec : Codec) (client : Client σ)
    (d : ResourceData) (s : σ) (hsound : codec.ParseSound) (hecho : client.EchoesKey)
    (hinv : IdInvariant codec d) :
    ((resourceGitlabGroupVariableCreate codec client d s).result = .returned none →
      IdInvariant codec (resourceGitlabGroupVariableCreate codec client d s).d) ∧
    ((resourceGitlabGroupVariableRead codec client d s).result = .returned none →
      IdInvariant codec (resourceGitlabGroupVariableRead codec client d s).d) ∧
    ((resourceGitlabGroupVariableUpdate codec client d s).result = .returned none →
      IdInvariant codec (resourceGitlabGroupVariableUpdate codec client d s).d) ∧
    ((resourceGitlabGroupVariableDelete client d s).result = .returned none →
      IdInvariant codec (resourceGitlabGroupVariableDelete client d s).d) := by
  refine ⟨?_, ?_, ?_, ?_⟩
  · rcases hcreate : client.CreateVariable s d.group
        ⟨some d.key, some d.value, some d.protected_, none⟩ with ⟨⟨cv, resp, err⟩, s1⟩
    cases err with
    | some e => simp [resourceGitlabGroupVariableCreate, hcreate]
    | none =>
      simp only [resourceGitlabGroupVariableCreate, hcreate]
      exact read_establishes_invariant codec client _ s1 hsound hecho
  · exact read_establishes_invariant codec client d s hsound hecho
  · rcases hupdate : client.UpdateVariable s d.group d.key
        ⟨some d.key, some d.value, some d.protected_, none⟩ with ⟨⟨uv, resp, err⟩, s1⟩
    cases err with
    | some e =>
      cases resp with
      | none => simp [resourceGitlabGroupVariableUpdate, hupdate]
      | some r =>
        by_cases h : r.StatusCode = 404 <;>
          simp [resourceGitlabGroupVariableUpdate, hupdate, h, IdInvariant]
    | none =>
      simp only [resourceGitlabGroupVariableUpdate, hupdate]
      exact read_establishes_invariant codec client d s1 hsound hecho
  · intro _
    simpa [resourceGitlabGroupVariableDelete] using hinv

/-- Witness of C7: the steady state of scenario S1 against the in-memory remote. All four
handlers return nil there, so every conjunct is about a handle that was really left. -/
theorem identifier_invariant_preserved_witness :
    (twoPartCodec ':').ParseSound ∧ memoryClient.EchoesKey ∧
    IdInvariant (twoPartCodec ':') ⟨"mygroup:FOO", "mygroup", "FOO", "bar", false⟩ ∧
    (resourceGitlabGroupVariableRead (twoPartCodec ':') memoryClient
        ⟨"mygroup:FOO", "mygroup", "FOO", "bar", false⟩
        [("mygroup", ⟨"FOO", "bar", false⟩)]).result = .returned none ∧
    (resourceGitlabGroupVariableUpdate (twoPartCodec ':') memoryClient
        ⟨"mygroup:FOO", "mygroup", "FOO", "bar", false⟩
        [("mygroup", ⟨"FOO", "bar", false⟩)]).result = .returned none ∧
    (resourceGitlabGroupVariableDelete memoryClient
        ⟨"mygroup:FOO", "mygroup", "FOO", "bar", false⟩
        [("mygroup", ⟨"FOO", "bar", false⟩)]).result = .returned none ∧
    IdInvariant (twoPartCodec ':')
      (resourceGitlabGroupVariableRead (twoPartCodec ':') memoryClient
        ⟨"mygroup:FOO", "mygroup", "FOO", "bar", false⟩
        [("mygroup", ⟨"FOO", "bar", false⟩)]).d ∧
    IdInvariant (twoPartCodec ':')
      (resourceGitlabGroupVariableUpdate (twoPartCodec ':') memoryClient
        ⟨"mygroup:FOO", "mygroup", "FOO", "bar", false⟩
        [("mygroup", ⟨"FOO", "bar", false⟩)]).d ∧
    IdInvariant (twoPartCodec ':')
      (resourceGitlabGroupVariableDelete memoryClient
        ⟨"mygroup:FOO", "mygroup", "FOO", "bar", false⟩
        [("mygroup", ⟨"FOO", "bar", false⟩)]).d :=
  have h := identifier_invariant_preserved (twoPartCodec ':') memoryClient
    ⟨"mygroup:FOO", "mygroup", "FOO", "bar", false⟩ [("mygroup", ⟨"FOO", "bar", false⟩)]
    (twoPartCodec_parseSound ':') memoryClient_echoesKey (fun _ => rfl)
  ⟨twoPartCodec_parseSound ':', memoryClient_echoesKey, fun _ => rfl, rfl, rfl, rfl,
    h.2.1 rfl, h.2.2.1 rfl, h.2.2.2 rfl⟩

end gitlab
